import Mathlib

/-!
Verification of the SageAttention build script (`setup.py`).

The script is modelled as pure functions over an explicit environment:
the `SAGEATTENTION_CUDA_ARCH_LIST` variable, the list of visible GPU
compute capabilities, and the nvcc CUDA version.  Python string
operations are embedded at the character-list level so that every
definition is executable and kernel-evaluable.
-/

namespace SageBuild

/-- Embedding of Python `t.startswith(pre)` / `cc.startswith(target)`. -/
def strStartsWith (s pre : String) : Bool :=
  pre.data.isPrefixOf s.data

/-- Embedding of Python `s.endswith(suf)`. -/
def strEndsWith (s suf : String) : Bool :=
  suf.data.isSuffixOf s.data

/-- Embedding of Python `s.split("+")[0]`: the characters before the first
`+` (the whole string when no `+` occurs). -/
def beforePlus (s : String) : String :=
  String.mk (s.data.takeWhile (fun c => c ≠ '+'))

/-- Embedding of Python `s.replace(".", "")`: drop every `.` character. -/
def dropDots (s : String) : String :=
  String.mk (s.data.filter (fun c => c ≠ '.'))

/-- Accumulator-style tokenizer: splits on whitespace runs, discarding
empty tokens, like Python `str.split()` with no argument. -/
def wsTokensAux : List Char → List Char → List String
  | cur, [] => if cur.isEmpty then [] else [String.mk cur.reverse]
  | cur, c :: rest =>
    if c.isWhitespace then
      if cur.isEmpty then wsTokensAux [] rest
      else String.mk cur.reverse :: wsTokensAux [] rest
    else wsTokensAux (c :: cur) rest

/-- Embedding of Python `s.split()` (no argument): whitespace-separated
non-empty tokens. -/
def wsTokens (s : String) : List String :=
  wsTokensAux [] s.data

/-- Adding an element to a Python `set`, modelled as an insertion-ordered
duplicate-free list: append only when absent. -/
def setAdd (l : List String) (x : String) : List String :=
  if l.contains x then l else l ++ [x]

/-- A parsed CUDA version, as produced by `packaging.version.parse` on the
`major.minor` release string printed by `nvcc -V`. -/
structure Version where
  major : Nat
  minor : Nat
deriving DecidableEq, Repr

/-- `packaging` version comparison restricted to `major.minor` versions:
lexicographic order. -/
def versionLt (a b : Version) : Bool :=
  a.major < b.major || (a.major == b.major && a.minor < b.minor)

/-- The ambient inputs of a run of `setup.py`: the
`SAGEATTENTION_CUDA_ARCH_LIST` environment variable (`none` when unset),
the compute capability `(major, minor)` of each visible CUDA device, and
the CUDA version reported by nvcc. -/
structure Env where
  archList : Option String
  gpus : List (Nat × Nat)
  nvccCudaVersion : Version

/-- Python truthiness of `os.getenv("SAGEATTENTION_CUDA_ARCH_LIST")`:
set and non-empty. -/
def archListTruthy (e : Env) : Bool :=
  match e.archList with
  | none => false
  | some s => s ≠ ""

/-- The f-string `f"{major}.{minor}"`. -/
def capString (ma mi : Nat) : String :=
  Nat.repr ma ++ "." ++ Nat.repr mi

/-- The warning message `f"skipping GPU {i} with compute capability
{major}.{minor}"`. -/
def skipMsg (i ma mi : Nat) : String :=
  "skipping GPU " ++ Nat.repr i ++ " with compute capability " ++ capString ma mi

/-- The GPU-detection loop of `setup.py` (lines 70-77): iterate over the
devices with their indices, skip (with a warning) any device whose major
capability is below 8, and add `f"{major}.{minor}"` of the others to the
capability set.  Returns the capability set (insertion-ordered list) and
the emitted warnings. -/
def gpuDetect : Nat → List String → List String → List (Nat × Nat) → List String × List String
  | _, caps, warns, [] => (caps, warns)
  | i, caps, warns, g :: rest =>
    if g.1 < 8 then
      gpuDetect (i + 1) caps (warns ++ [skipMsg i g.1 g.2]) rest
    else
      gpuDetect (i + 1) (setAdd caps (capString g.1 g.2)) warns rest

/-- Lines 65-77 of `setup.py`: `compute_capabilities` together with the
warnings emitted while computing it.  When the environment variable is
truthy its whitespace-separated tokens are added to the set and the GPUs
are never consulted; otherwise the GPU-detection loop runs. -/
def detect (e : Env) : List String × List String :=
  if archListTruthy e then
    (match e.archList with
     | none => []
     | some s => (wsTokens s).foldl setAdd [], [])
  else
    gpuDetect 0 [] [] e.gpus

/-- `compute_capabilities` as computed by `setup.py` for environment `e`. -/
def compute_capabilities (e : Env) : List String :=
  (detect e).1

/-- `has_capability(target)` (lines 85-86):
`any(cc.startswith(target) for cc in compute_capabilities)`.  `target`
may be a string or a tuple of strings in Python; it is modelled as a list
of strings (a singleton for the string case), since `str.startswith`
accepts a tuple of prefixes. -/
def has_capability (caps : List String) (targets : List String) : Bool :=
  caps.any (fun cc => targets.any (fun t => strStartsWith cc t))

/-- The common NVCC flags `NVCC_FLAGS_COMMON` (lines 32-43 and 47),
parameterized by `os.cpu_count()` and the torch CXX11 ABI flag. -/
def nvccFlagsCommon (cpuCount : Nat) (abi : Bool) : List String :=
  ["-O3", "-std=c++17",
   "-U__CUDA_NO_HALF_OPERATORS__", "-U__CUDA_NO_HALF_CONVERSIONS__",
   "--use_fast_math",
   "--threads=" ++ Nat.repr cpuCount,
   "-diag-suppress=174", "-diag-suppress=177", "-diag-suppress=221",
   "-D_GLIBCXX_USE_CXX11_ABI=" ++ (if abi then "1" else "0")]

/-- The body of the loop of `get_nvcc_flags` for one capability that
passed the `allowed_capabilities` test (lines 108-117): compute `num`
from `capability.split("+")[0].replace(".", "")`, append `"a"` when it is
`"90"` or `"120"`, and emit the `-gencode` pairs. -/
def capGencode (capability : String) : List String :=
  let num := dropDots (beforePlus capability)
  let num := if num = "90" ∨ num = "120" then num ++ "a" else num
  ["-gencode", "arch=compute_" ++ num ++ ",code=sm_" ++ num] ++
    (if strEndsWith capability "+PTX" then
      ["-gencode", "arch=compute_" ++ num ++ ",code=compute_" ++ num]
     else [])

/-- `get_nvcc_flags(allowed_capabilities)` (lines 102-120): a loop over
`compute_capabilities` accumulating `NVCC_FLAGS`, skipping capabilities
not in `allowed_capabilities`, then appending the common flags. -/
def get_nvcc_flags (caps allowed : List String) (cpuCount : Nat) (abi : Bool) : List String :=
  (caps.foldl
    (fun acc capability =>
      if ¬ allowed.contains capability then acc
      else acc ++ capGencode capability)
    []) ++ nvccFlagsCommon cpuCount abi

/-- A `CUDAExtension` as constructed in `setup.py`: its name, source
files, linked libraries, and nvcc compile flags. -/
structure CUDAExtension where
  name : String
  sources : List String
  libraries : List String
  nvcc : List String
deriving DecidableEq, Repr

/-- Lines 122-182: the `ext_modules` list, built by conditionally
appending the three architecture-specific `_qattn` extensions and then
unconditionally appending the fused extension. -/
def ext_modules (caps : List String) (cpuCount : Nat) (abi : Bool) : List CUDAExtension :=
  (if has_capability caps ["8.0"] then
    [{ name := "sageattention._qattn_sm80",
       sources := ["csrc/qattn/pybind_sm80.cpp",
                   "csrc/qattn/qk_int_sv_f16_cuda_sm80.cu"],
       libraries := [],
       nvcc := get_nvcc_flags caps ["8.0"] cpuCount abi }]
   else []) ++
  (if has_capability caps ["8.9", "12.0"] then
    [{ name := "sageattention._qattn_sm89",
       sources := ["csrc/qattn/pybind_sm89.cpp",
                   "csrc/qattn/sm89_qk_int8_sv_f8_accum_f32_attn_inst_buf.cu",
                   "csrc/qattn/sm89_qk_int8_sv_f8_accum_f16_attn_inst_buf.cu",
                   "csrc/qattn/sm89_qk_int8_sv_f8_accum_f32_attn.cu",
                   "csrc/qattn/sm89_qk_int8_sv_f8_accum_f32_fuse_v_scale_fuse_v_mean_attn.cu",
                   "csrc/qattn/sm89_qk_int8_sv_f8_accum_f32_fuse_v_scale_attn.cu",
                   "csrc/qattn/sm89_qk_int8_sv_f8_accum_f32_fuse_v_scale_attn_inst_buf.cu",
                   "csrc/qattn/sm89_qk_int8_sv_f8_accum_f16_fuse_v_scale_attn_inst_buf.cu"],
       libraries := [],
       nvcc := get_nvcc_flags caps ["8.9", "12.0"] cpuCount abi }]
   else []) ++
  (if has_capability caps ["9.0"] then
    [{ name := "sageattention._qattn_sm90",
       sources := ["csrc/qattn/pybind_sm90.cpp",
                   "csrc/qattn/qk_int_sv_f8_cuda_sm90.cu"],
       libraries := ["cuda"],
       nvcc := get_nvcc_flags caps ["9.0"] cpuCount abi }]
   else []) ++
  [{ name := "sageattention._fused",
     sources := ["csrc/fused/pybind.cpp", "csrc/fused/fused.cu"],
     libraries := [],
     nvcc := get_nvcc_flags caps ["8.0", "8.9", "9.0", "12.0"] cpuCount abi }]

/-- The `RuntimeError`s `setup.py` can raise after capability detection
(lines 80-99). -/
inductive BuildError where
  | noGpus
  | cuda120Required
  | cuda124RequiredFor89
  | cuda123RequiredFor90
  | cuda128RequiredFor120
deriving DecidableEq, Repr

/-- Lines 65-197 of `setup.py` as a pipeline: detect capabilities, raise
when the set is empty, validate the nvcc CUDA version against the
targeted capabilities, and otherwise hand `ext_modules` to `setup`. -/
def build (e : Env) (cpuCount : Nat) (abi : Bool) : Except BuildError (List CUDAExtension) :=
  let caps := compute_capabilities e
  if caps.isEmpty then .error .noGpus
  else if versionLt e.nvccCudaVersion ⟨12, 0⟩ then .error .cuda120Required
  else if versionLt e.nvccCudaVersion ⟨12, 4⟩ && has_capability caps ["8.9"] then
    .error .cuda124RequiredFor89
  else if versionLt e.nvccCudaVersion ⟨12, 3⟩ && has_capability caps ["9.0"] then
    .error .cuda123RequiredFor90
  else if versionLt e.nvccCudaVersion ⟨12, 8⟩ && has_capability caps ["12.0"] then
    .error .cuda128RequiredFor120
  else .ok (ext_modules caps cpuCount abi)

/-! ### The claim-side description of `get_nvcc_flags` (C9) -/

/-- Dropping a final `"+PTX"` from a string (identity when the string does
not end in `"+PTX"`). -/
def dropPTXSuffix (c : String) : String :=
  if strEndsWith c "+PTX" then String.mk (c.data.take (c.data.length - 4)) else c

/-- The claim's description of the gencode architecture number `N`:
"`c` with any `+PTX` suffix dropped and the dot removed, with `a`
appended exactly when `N` is `90` or `120`". -/
def claimCapNum (c : String) : String :=
  let n := dropDots (dropPTXSuffix c)
  if n = "90" ∨ n = "120" then n ++ "a" else n

/-- The claim's description of the flags emitted for one capability. -/
def claimCapGencode (c : String) : List String :=
  ["-gencode", "arch=compute_" ++ claimCapNum c ++ ",code=sm_" ++ claimCapNum c] ++
    (if strEndsWith c "+PTX" then
      ["-gencode", "arch=compute_" ++ claimCapNum c ++ ",code=compute_" ++ claimCapNum c]
     else [])

/-- The claim's description of `get_nvcc_flags` as a whole: per-capability
flags for exactly the allowed capabilities, then the common flags. -/
def claim_nvcc_flags (caps allowed : List String) (cpuCount : Nat) (abi : Bool) : List String :=
  (caps.filter (fun c => allowed.contains c)).flatMap claimCapGencode ++
    nvccFlagsCommon cpuCount abi

end SageBuild

namespace Quantizer

/-- Modelled from the spec: the quantizer's CUDA/Python implementation is
not under `src/`, so the per-block quantizer of spec §4.1 is modelled
from the spec's words.  `maxAbs` is the dynamic range of a quantization
block: the largest absolute value it contains. -/
def maxAbs (xs : List ℚ) : ℚ :=
  xs.foldl (fun m x => max m |x|) 0

/-- Modelled from the spec: the per-block scale factor for a signed
quantization grid with largest representable magnitude `qmax` (e.g. 127
for int8), clamped below by a positive epsilon so that degenerate
(all-zero) blocks never yield a zero scale. -/
def qscale (qmax : ℕ) (ε : ℚ) (xs : List ℚ) : ℚ :=
  max (maxAbs xs / qmax) ε

/-- Modelled from the spec: quantize one block element by rounding its
ratio to the block scale to the nearest integer. -/
def quantize (qmax : ℕ) (ε : ℚ) (xs : List ℚ) (x : ℚ) : ℤ :=
  round (x / qscale qmax ε xs)

/-- Modelled from the spec: dequantization is multiplication by the block
scale (`dequantized_value ≈ quantized_value * scale`). -/
def dequantize (qmax : ℕ) (ε : ℚ) (xs : List ℚ) (q : ℤ) : ℚ :=
  q * qscale qmax ε xs

end Quantizer

namespace SageBuild

/-! ### Helper lemmas -/

/-- The initial accumulator is below a `max`-with-`abs` fold. -/
theorem le_foldl_maxAbs (xs : List ℚ) (m : ℚ) :
    m ≤ xs.foldl (fun a x => max a |x|) m := by
  induction xs generalizing m with
  | nil => exact le_refl m
  | cons y ys ih => exact le_trans (le_max_left m |y|) (ih (max m |y|))

/-- Every block element is bounded by a `max`-with-`abs` fold. -/
theorem abs_le_foldl_maxAbs (xs : List ℚ) (m x : ℚ) (hx : x ∈ xs) :
    |x| ≤ xs.foldl (fun a y => max a |y|) m := by
  induction xs generalizing m with
  | nil => cases hx
  | cons y ys ih =>
    rcases List.mem_cons.mp hx with rfl | hmem
    · exact le_trans (le_max_right m |x|) (le_foldl_maxAbs ys (max m |x|))
    · exact ih (max m |y|) hmem

/-- Every block element is bounded by the block's dynamic range. -/
theorem abs_le_maxAbs (xs : List ℚ) (x : ℚ) (hx : x ∈ xs) :
    |x| ≤ Quantizer.maxAbs xs :=
  abs_le_foldl_maxAbs xs 0 x hx

/-- The dynamic range of a block is nonnegative. -/
theorem maxAbs_nonneg (xs : List ℚ) : 0 ≤ Quantizer.maxAbs xs :=
  le_foldl_maxAbs xs 0

/-- Membership in a Python-set insertion. -/
theorem mem_setAdd (l : List String) (x c : String) :
    c ∈ setAdd l x ↔ c ∈ l ∨ c = x := by
  have hcx : l.contains x = true ↔ x ∈ l := by
    simp [List.contains_iff_exists_mem_beq]
  unfold setAdd
  by_cases h : x ∈ l
  · rw [if_pos (hcx.mpr h)]
    constructor
    · exact Or.inl
    · rintro (hc | rfl)
      · exact hc
      · exact h
  · rw [if_neg (fun hc => h (hcx.mp hc))]
    simp

/-- Membership in a fold of Python-set insertions. -/
theorem mem_foldl_setAdd (l : List String) (acc : List String) (c : String) :
    c ∈ l.foldl setAdd acc ↔ c ∈ acc ∨ c ∈ l := by
  induction l generalizing acc with
  | nil => simp
  | cons x xs ih =>
    rw [List.foldl_cons, ih, mem_setAdd]
    constructor
    · rintro ((h | rfl) | h)
      · exact Or.inl h
      · exact Or.inr (List.mem_cons_self _ _)
      · exact Or.inr (List.mem_cons_of_mem _ h)
    · rintro (h | h)
      · exact Or.inl (Or.inl h)
      · rcases List.mem_cons.mp h with rfl | h
        · exact Or.inl (Or.inr rfl)
        · exact Or.inr h

/-- The names of the registered extensions, as a function of the three
`has_capability` tests. -/
theorem ext_modules_names (caps : List String) (cpu : Nat) (abi : Bool) :
    (ext_modules caps cpu abi).map CUDAExtension.name =
      (if has_capability caps ["8.0"] then ["sageattention._qattn_sm80"] else []) ++
      (if has_capability caps ["8.9", "12.0"] then ["sageattention._qattn_sm89"] else []) ++
      (if has_capability caps ["9.0"] then ["sageattention._qattn_sm90"] else []) ++
      ["sageattention._fused"] := by
  unfold ext_modules
  cases has_capability caps ["8.0"] <;>
    cases has_capability caps ["8.9", "12.0"] <;>
      cases has_capability caps ["9.0"] <;> simp

/-- The accumulating loop of `get_nvcc_flags`, in closed form. -/
theorem nvcc_foldl_eq (allowed : List String) (caps : List String) (acc : List String) :
    caps.foldl
      (fun acc capability =>
        if ¬ allowed.contains capability then acc
        else acc ++ capGencode capability) acc =
    acc ++ (caps.filter (fun c => allowed.contains c)).flatMap capGencode := by
  induction caps generalizing acc with
  | nil => simp
  | cons c cs ih =>
    rw [List.foldl_cons]
    by_cases h : allowed.contains c = true
    · rw [if_neg (not_not_intro h), ih, List.filter_cons, if_pos h, List.flatMap_cons,
        List.append_assoc]
    · rw [if_pos h, ih, List.filter_cons, if_neg h]

/-- Closed form of the GPU-detection loop: the capability set is a fold of
set-insertions over the devices with major capability at least 8, and the
warning list has one skip message per device with major capability below
8, carrying that device's index. -/
theorem gpuDetect_spec (gpus : List (Nat × Nat)) (i : Nat) (caps warns : List String) :
    (gpuDetect i caps warns gpus).1 =
      ((gpus.filter (fun g => 8 ≤ g.1)).map (fun g => capString g.1 g.2)).foldl setAdd caps ∧
    (gpuDetect i caps warns gpus).2 =
      warns ++ ((List.enumFrom i gpus).filter (fun p => p.2.1 < 8)).map
        (fun p => skipMsg p.1 p.2.1 p.2.2) := by
  induction gpus generalizing i caps warns with
  | nil => simp [gpuDetect, List.enumFrom]
  | cons g gs ih =>
    by_cases h : g.1 < 8
    · have h8 : ¬ (8 ≤ g.1) := by omega
      have hstep : gpuDetect i caps warns (g :: gs) =
          gpuDetect (i + 1) caps (warns ++ [skipMsg i g.1 g.2]) gs := by
        simp [gpuDetect, h]
      rw [hstep]
      constructor
      · rw [(ih (i + 1) caps (warns ++ [skipMsg i g.1 g.2])).1]
        simp [List.filter_cons, h8]
      · rw [(ih (i + 1) caps (warns ++ [skipMsg i g.1 g.2])).2]
        simp [List.enumFrom, List.filter_cons, h, List.append_assoc]
    · have h8 : 8 ≤ g.1 := by omega
      have hstep : gpuDetect i caps warns (g :: gs) =
          gpuDetect (i + 1) (setAdd caps (capString g.1 g.2)) warns gs := by
        simp [gpuDetect, h]
      rw [hstep]
      constructor
      · rw [(ih (i + 1) (setAdd caps (capString g.1 g.2)) warns).1]
        simp [List.filter_cons, h8]
      · rw [(ih (i + 1) (setAdd caps (capString g.1 g.2)) warns).2]
        simp [List.enumFrom, List.filter_cons, h]

/-- A successful build hands exactly `ext_modules` of the detected
capability set to `setup`. -/
theorem build_ok_exts (e : Env) (cpu : Nat) (abi : Bool) (exts : List CUDAExtension)
    (h : build e cpu abi = Except.ok exts) :
    exts = ext_modules (compute_capabilities e) cpu abi := by
  simp only [build] at h
  split at h
  · simp at h
  split at h
  · simp at h
  split at h
  · simp at h
  split at h
  · simp at h
  split at h
  · simp at h
  exact (Except.ok.inj h).symm

/-! ### Claims -/

/-- C1, counterexample: `has_capability` is not an exact-match lookup.
With the reachable capability set `{"8.0+PTX"}` (obtained by setting
`SAGEATTENTION_CUDA_ARCH_LIST="8.0+PTX"`), `has_capability("8.0")`
returns `true` although `"8.0"` is not a registered capability key:
the code uses `str.startswith`, a prefix test. -/
theorem C1_counterexample :
    has_capability ["8.0+PTX"] ["8.0"] = true ∧
    "8.0" ∉ ["8.0+PTX"] ∧
    compute_capabilities ⟨some "8.0+PTX", [], ⟨12, 4⟩⟩ = ["8.0+PTX"] :=
  ⟨by decide, by decide, rfl⟩

/-- C1, amended: kernel-variant lookup is a deterministic, pure function
of the registered capability set, and `has_capability(target)` returns
`true` exactly when some registered capability has the target (one of
the targets, for a tuple) as a string *prefix*; each architecture-specific
kernel extension is selected exactly when the corresponding
`has_capability` test succeeds, so a target set with no prefix match
never selects that kernel variant. -/
theorem C1_prefix_lookup_amended (caps targets : List String) (cpu : Nat) (abi : Bool) :
    (has_capability caps targets = true ↔
      ∃ cc ∈ caps, ∃ t ∈ targets, strStartsWith cc t = true) ∧
    ("sageattention._qattn_sm80" ∈ (ext_modules caps cpu abi).map CUDAExtension.name ↔
      has_capability caps ["8.0"] = true) ∧
    ("sageattention._qattn_sm89" ∈ (ext_modules caps cpu abi).map CUDAExtension.name ↔
      has_capability caps ["8.9", "12.0"] = true) ∧
    ("sageattention._qattn_sm90" ∈ (ext_modules caps cpu abi).map CUDAExtension.name ↔
      has_capability caps ["9.0"] = true) := by
  refine ⟨by simp [has_capability], ?_, ?_, ?_⟩ <;>
    rw [ext_modules_names] <;>
      cases has_capability caps ["8.0"] <;>
        cases has_capability caps ["8.9", "12.0"] <;>
          cases has_capability caps ["9.0"] <;> simp

/-- C2: the nvcc CUDA version is validated before any extension module is
constructed: whenever the version is below 12.0, or below 12.4 while
capability 8.9 is targeted, or below 12.3 while capability 9.0 is
targeted, or below 12.8 while capability 12.0 is targeted, the build
raises a `RuntimeError` and produces no extension list. -/
theorem C2_nvcc_version_validated (e : Env) (cpu : Nat) (abi : Bool)
    (h : versionLt e.nvccCudaVersion ⟨12, 0⟩ = true
       ∨ (versionLt e.nvccCudaVersion ⟨12, 4⟩ = true ∧
            has_capability (compute_capabilities e) ["8.9"] = true)
       ∨ (versionLt e.nvccCudaVersion ⟨12, 3⟩ = true ∧
            has_capability (compute_capabilities e) ["9.0"] = true)
       ∨ (versionLt e.nvccCudaVersion ⟨12, 8⟩ = true ∧
            has_capability (compute_capabilities e) ["12.0"] = true)) :
    ∃ err, build e cpu abi = Except.error err := by
  simp only [build]
  split
  · exact ⟨_, rfl⟩
  split
  · exact ⟨_, rfl⟩
  split
  · exact ⟨_, rfl⟩
  split
  · exact ⟨_, rfl⟩
  split
  · exact ⟨_, rfl⟩
  rename_i h1 h2 h3 h4 h5
  exfalso
  rcases h with h0 | ⟨ha, hb⟩ | ⟨ha, hb⟩ | ⟨ha, hb⟩
  · exact h2 h0
  · exact h3 (by rw [ha, hb]; rfl)
  · exact h4 (by rw [ha, hb]; rfl)
  · exact h5 (by rw [ha, hb]; rfl)

/-- C2, witness: with `SAGEATTENTION_CUDA_ARCH_LIST="8.9"` and nvcc 12.2
the build fails with an error. -/
theorem C2_nvcc_version_validated_witness :
    (versionLt (⟨12, 2⟩ : Version) ⟨12, 4⟩ = true ∧
      has_capability (compute_capabilities ⟨some "8.9", [], ⟨12, 2⟩⟩) ["8.9"] = true) ∧
    ∃ err, build ⟨some "8.9", [], ⟨12, 2⟩⟩ 8 true = Except.error err :=
  ⟨⟨by decide, by decide⟩,
    C2_nvcc_version_validated ⟨some "8.9", [], ⟨12, 2⟩⟩ 8 true
      (Or.inr (Or.inl ⟨by decide, by decide⟩))⟩

/-- C3: when the environment variable is not set (or is falsy) and every
visible GPU has major capability below 8, the capability set is empty and
the build raises the "No GPUs found" `RuntimeError` instead of building
zero kernel variants or substituting another target. -/
theorem C3_empty_capabilities_error (e : Env) (cpu : Nat) (abi : Bool)
    (h1 : archListTruthy e = false) (h2 : ∀ g ∈ e.gpus, g.1 < 8) :
    build e cpu abi = Except.error BuildError.noGpus := by
  have hfilter : e.gpus.filter (fun g => 8 ≤ g.1) = [] := by
    rw [List.filter_eq_nil_iff]
    intro g hg
    simpa using Nat.not_le.mpr (h2 g hg)
  have hcaps : compute_capabilities e = [] := by
    unfold compute_capabilities detect
    rw [if_neg (by simp [h1])]
    rw [(gpuDetect_spec e.gpus 0 [] []).1, hfilter]
    rfl
  simp only [build, hcaps]
  rfl

/-- C3, witness: no environment override, one sub-8.0 GPU, nvcc 12.4. -/
theorem C3_empty_capabilities_error_witness :
    archListTruthy ⟨none, [(7, 5)], ⟨12, 4⟩⟩ = false ∧
    (∀ g ∈ [((7 : Nat), (5 : Nat))], g.1 < 8) ∧
    build ⟨none, [(7, 5)], ⟨12, 4⟩⟩ 8 true = Except.error BuildError.noGpus :=
  ⟨rfl, by decide, C3_empty_capabilities_error _ 8 true rfl (by decide)⟩

/-- C4: during automatic GPU detection every device with major capability
below 8 is skipped with a warning and contributes nothing: the capability
set is computed from the devices with major capability at least 8 alone,
and the warnings are exactly the skip messages of the excluded devices.
Since `ext_modules` and all gencode flags are functions of the capability
set alone, no kernel extension or gencode flag is ever generated for a
skipped device. -/
theorem C4_low_capability_skipped (e : Env)
    (h : archListTruthy e = false) :
    compute_capabilities e =
      ((e.gpus.filter (fun g => 8 ≤ g.1)).map (fun g => capString g.1 g.2)).foldl setAdd [] ∧
    (detect e).2 =
      ((List.enumFrom 0 e.gpus).filter (fun p => p.2.1 < 8)).map
        (fun p => skipMsg p.1 p.2.1 p.2.2) := by
  have hdet : detect e = gpuDetect 0 [] [] e.gpus := by
    unfold detect
    rw [if_neg (by simp [h])]
  constructor
  · unfold compute_capabilities
    rw [hdet, (gpuDetect_spec e.gpus 0 [] []).1]
  · rw [hdet, (gpuDetect_spec e.gpus 0 [] []).2]
    simp

/-- C4, witness: a 7.5 device is skipped with a warning while an 8.0
device is registered. -/
theorem C4_low_capability_skipped_witness :
    archListTruthy ⟨none, [(7, 5), (8, 0)], ⟨12, 4⟩⟩ = false ∧
    (compute_capabilities ⟨none, [(7, 5), (8, 0)], ⟨12, 4⟩⟩ =
      ((([((7 : Nat), (5 : Nat)), (8, 0)].filter (fun g => 8 ≤ g.1)).map
        (fun g => capString g.1 g.2)).foldl setAdd []) ∧
     (detect ⟨none, [(7, 5), (8, 0)], ⟨12, 4⟩⟩).2 =
      ((List.enumFrom 0 [((7 : Nat), (5 : Nat)), (8, 0)]).filter
        (fun p => p.2.1 < 8)).map (fun p => skipMsg p.1 p.2.1 p.2.2)) :=
  ⟨rfl, C4_low_capability_skipped _ rfl⟩

/-- C5: registration happens as one linear sequence of appends: the name
list of `ext_modules` is exactly the concatenation of the three optional
architecture-specific entries followed by the fused entry, and it never
contains a duplicate name, for every capability set. -/
theorem C5_registration_single_append (caps : List String) (cpu : Nat) (abi : Bool) :
    ((ext_modules caps cpu abi).map CUDAExtension.name).Nodup ∧
    (ext_modules caps cpu abi).map CUDAExtension.name =
      (if has_capability caps ["8.0"] then ["sageattention._qattn_sm80"] else []) ++
      (if has_capability caps ["8.9", "12.0"] then ["sageattention._qattn_sm89"] else []) ++
      (if has_capability caps ["9.0"] then ["sageattention._qattn_sm90"] else []) ++
      ["sageattention._fused"] := by
  refine ⟨?_, ext_modules_names caps cpu abi⟩
  rw [ext_modules_names]
  cases has_capability caps ["8.0"] <;>
    cases has_capability caps ["8.9", "12.0"] <;>
      cases has_capability caps ["9.0"] <;> decide

/-- C7 (spec-modelled: the quantizer kernels are not under `src/`):
for every block and every element of it, the scale is strictly positive
(clamped below by `ε`, so degenerate blocks divide by a positive finite
scale), dequantize-after-quantize recovers the element within half a
quantization step, in particular within `maxAbs xs / (2 * qmax)` — the
documented bound as a function of bit width and dynamic range — whenever
the epsilon clamp is inactive, and an all-zero block is recovered
exactly. -/
theorem C7_quantize_dequantize_roundtrip (qmax : ℕ) (hq : 0 < qmax) (ε : ℚ) (hε : 0 < ε)
    (xs : List ℚ) (x : ℚ) (hx : x ∈ xs) :
    0 < Quantizer.qscale qmax ε xs ∧
    |Quantizer.dequantize qmax ε xs (Quantizer.quantize qmax ε xs x) - x| ≤
      Quantizer.qscale qmax ε xs / 2 ∧
    (ε * qmax ≤ Quantizer.maxAbs xs →
      |Quantizer.dequantize qmax ε xs (Quantizer.quantize qmax ε xs x) - x| ≤
        Quantizer.maxAbs xs / (2 * qmax)) ∧
    (Quantizer.maxAbs xs = 0 →
      Quantizer.dequantize qmax ε xs (Quantizer.quantize qmax ε xs x) = x) := by
  have hqQ : (0:ℚ) < qmax := by exact_mod_cast hq
  have hsε : ε ≤ Quantizer.qscale qmax ε xs := le_max_right _ _
  have hs : 0 < Quantizer.qscale qmax ε xs := lt_of_lt_of_le hε hsε
  set s := Quantizer.qscale qmax ε xs with hs_def
  have hxs : x / s * s = x := div_mul_cancel₀ x hs.ne'
  have hmain : |Quantizer.dequantize qmax ε xs (Quantizer.quantize qmax ε xs x) - x| ≤ s / 2 := by
    have heq : Quantizer.dequantize qmax ε xs (Quantizer.quantize qmax ε xs x) - x
        = (↑(round (x / s)) - x / s) * s := by
      unfold Quantizer.dequantize Quantizer.quantize
      rw [← hs_def, sub_mul, hxs]
    rw [heq, abs_mul, abs_of_pos hs, abs_sub_comm]
    calc |x / s - ↑(round (x / s))| * s ≤ 1 / 2 * s :=
          mul_le_mul_of_nonneg_right (abs_sub_round (x / s)) hs.le
      _ = s / 2 := by ring
  refine ⟨hs, hmain, fun h => ?_, fun h0 => ?_⟩
  · have hle : ε ≤ Quantizer.maxAbs xs / qmax := (le_div_iff₀ hqQ).mpr h
    have hseq : s = Quantizer.maxAbs xs / qmax := by
      rw [hs_def]
      unfold Quantizer.qscale
      exact max_eq_left hle
    calc |Quantizer.dequantize qmax ε xs (Quantizer.quantize qmax ε xs x) - x| ≤ s / 2 := hmain
      _ = Quantizer.maxAbs xs / (2 * qmax) := by rw [hseq, div_div, mul_comm]
  · have hx0 : x = 0 := by
      have := abs_le_maxAbs xs x hx
      rw [h0] at this
      exact abs_nonpos_iff.mp this
    subst hx0
    unfold Quantizer.dequantize Quantizer.quantize
    rw [← hs_def, zero_div, round_zero, Int.cast_zero, zero_mul]

/-- C7, witness: the block `[0, 3/2]` with `qmax = 127` and `ε = 1`. -/
theorem C7_quantize_dequantize_roundtrip_witness :
    0 < 127 ∧ (0:ℚ) < 1 ∧ ((3 : ℚ)/2) ∈ [(0 : ℚ), 3/2] ∧
    (0 < Quantizer.qscale 127 1 [(0 : ℚ), 3/2] ∧
     |Quantizer.dequantize 127 1 [(0 : ℚ), 3/2]
        (Quantizer.quantize 127 1 [(0 : ℚ), 3/2] (3/2)) - 3/2| ≤
       Quantizer.qscale 127 1 [(0 : ℚ), 3/2] / 2 ∧
     ((1 : ℚ) * (127 : ℕ) ≤ Quantizer.maxAbs [(0 : ℚ), 3/2] →
       |Quantizer.dequantize 127 1 [(0 : ℚ), 3/2]
          (Quantizer.quantize 127 1 [(0 : ℚ), 3/2] (3/2)) - 3/2| ≤
         Quantizer.maxAbs [(0 : ℚ), 3/2] / (2 * (127 : ℕ))) ∧
     (Quantizer.maxAbs [(0 : ℚ), 3/2] = 0 →
       Quantizer.dequantize 127 1 [(0 : ℚ), 3/2]
          (Quantizer.quantize 127 1 [(0 : ℚ), 3/2] (3/2)) = 3/2)) :=
  ⟨by decide, one_pos, by simp,
    C7_quantize_dequantize_roundtrip 127 (by decide) 1 one_pos _ _ (by simp)⟩

/-- C8: when `SAGEATTENTION_CUDA_ARCH_LIST` is set to a non-empty string,
`compute_capabilities` is exactly the set of its whitespace-separated
tokens: the GPUs are never consulted (the result does not depend on
them), no warning is emitted, and no major-version filter is applied, so
sub-8.0 architectures supplied through the variable enter the target set
verbatim. -/
theorem C8_arch_list_override (e : Env) (s : String)
    (h1 : e.archList = some s) (h2 : s ≠ "") :
    detect e = ((wsTokens s).foldl setAdd [], []) ∧
    ∀ c, c ∈ compute_capabilities e ↔ c ∈ wsTokens s := by
  have hdet : detect e = ((wsTokens s).foldl setAdd [], []) := by
    simp [detect, archListTruthy, h1, h2]
  refine ⟨hdet, fun c => ?_⟩
  unfold compute_capabilities
  rw [hdet]
  simpa using mem_foldl_setAdd (wsTokens s) [] c

/-- C8, witness: `SAGEATTENTION_CUDA_ARCH_LIST="7.5 8.0"` on a machine
with a 9.0 GPU: the token set is used verbatim, the GPU is ignored, and
the sub-8.0 architecture enters without warning. -/
theorem C8_arch_list_override_witness :
    (⟨some "7.5 8.0", [(9, 0)], ⟨12, 4⟩⟩ : Env).archList = some "7.5 8.0" ∧
    "7.5 8.0" ≠ "" ∧
    (detect ⟨some "7.5 8.0", [(9, 0)], ⟨12, 4⟩⟩ =
        ((wsTokens "7.5 8.0").foldl setAdd [], []) ∧
     ∀ c, c ∈ compute_capabilities ⟨some "7.5 8.0", [(9, 0)], ⟨12, 4⟩⟩ ↔
        c ∈ wsTokens "7.5 8.0") :=
  ⟨rfl, by decide, C8_arch_list_override _ _ rfl (by decide)⟩

/-- C9, counterexample: the claim's description of the architecture
number `N` — "`c` with any `+PTX` suffix dropped and the dot removed" —
disagrees with the code, which takes the part of `c` before the *first*
`+`.  On the capability token `"8.0+foo"` the code emits
`arch=compute_80,code=sm_80` while the claim's description predicts
`arch=compute_80+foo,code=sm_80+foo`. -/
theorem C9_counterexample :
    get_nvcc_flags ["8.0+foo"] ["8.0+foo"] 1 true ≠
      claim_nvcc_flags ["8.0+foo"] ["8.0+foo"] 1 true := by decide

/-- C9, amended: `get_nvcc_flags(allowed)` emits, for exactly the
capabilities that are members of `allowed` (in order), the flags
`-gencode arch=compute_N,code=sm_N` — where `N` is the part of the
capability before the first `+` with the dots removed, with `a` appended
exactly when that gives `90` or `120` — plus
`-gencode arch=compute_N,code=compute_N` exactly when the capability ends
with `+PTX`; capabilities not in `allowed` contribute no flags, and the
common NVCC flags are always appended. -/
theorem C9_gencode_flags_amended (caps allowed : List String) (cpu : Nat) (abi : Bool) :
    get_nvcc_flags caps allowed cpu abi =
      (caps.filter (fun c => allowed.contains c)).flatMap capGencode ++
        nvccFlagsCommon cpu abi := by
  unfold get_nvcc_flags
  rw [nvcc_foldl_eq allowed caps []]
  simp

/-- C10: every successful build registers the fused extension
`sageattention._fused`, whatever the capability set. -/
theorem C10_fused_always_registered (e : Env) (cpu : Nat) (abi : Bool)
    (exts : List CUDAExtension) (h : build e cpu abi = Except.ok exts) :
    "sageattention._fused" ∈ exts.map CUDAExtension.name := by
  rw [build_ok_exts e cpu abi exts h, ext_modules_names]
  simp

/-- C10, witness: with only the unsupported-by-qattn capability `7.5`,
the build still succeeds and registers exactly the fused extension. -/
theorem C10_fused_always_registered_witness :
    build ⟨some "7.5", [], ⟨12, 4⟩⟩ 8 true = Except.ok (ext_modules ["7.5"] 8 true) ∧
    "sageattention._fused" ∈ (ext_modules ["7.5"] 8 true).map CUDAExtension.name :=
  ⟨rfl, C10_fused_always_registered ⟨some "7.5", [], ⟨12, 4⟩⟩ 8 true
    (ext_modules ["7.5"] 8 true) rfl⟩

end SageBuild
